import Mathlib

/-!
Shallow embedding of the participant-store core of the Spandan event
registration system (src/database.py and src/utils.py).

Dynamic Python/SQLite cell values are modelled by the inductive `Val`
(NULL, text, integer, boolean).  Each table is a Lean list of structures;
the whole database is a `DBState`.  SQLite's `CURRENT_TIMESTAMP` is passed
to each mutating operation as an explicit `t : Nat` argument, and
`AUTOINCREMENT` row ids are modelled by explicit counters in `DBState`.
-/

/-- Dynamic value stored in a database cell or passed from Python callers. -/
inductive Val where
  | vNull
  | vStr (s : String)
  | vInt (n : Int)
  | vBool (b : Bool)
deriving DecidableEq, Repr

/-- Python equality (`==`) between dynamic values: `None` equals only `None`,
`True == 1` and `False == 0` (bool is an int subclass), and strings never
equal numbers. -/
def pyEq : Val → Val → Bool
  | .vNull, .vNull => true
  | .vStr s, .vStr t => s == t
  | .vInt m, .vInt n => m == n
  | .vBool a, .vBool b => a == b
  | .vBool a, .vInt n => (if a then (1 : Int) else 0) == n
  | .vInt n, .vBool a => n == (if a then (1 : Int) else 0)
  | _, _ => false

/-- Python `str()` of a dynamic value. -/
def pyStr : Val → String
  | .vNull => "None"
  | .vStr s => s
  | .vInt n => toString n
  | .vBool true => "True"
  | .vBool false => "False"

/-- Python truthiness of a dynamic value. -/
def pyTruthy : Val → Bool
  | .vNull => false
  | .vStr s => s != ""
  | .vInt n => n != 0
  | .vBool b => b

/-- Python truthiness of an optional byte string (photo argument):
`None` and empty bytes are falsy. -/
def photoTruthy : Option String → Bool
  | none => false
  | some s => s != ""

/-- SQLite comparison of a stored cell against an integer bind parameter:
only numeric storage classes compare equal to an integer. -/
def sqlEqInt (v : Val) (n : Int) : Bool :=
  match v with
  | .vInt m => m == n
  | .vBool b => (if b then (1 : Int) else 0) == n
  | _ => false

/-- Row of the `users` table. -/
structure User where
  id : Nat
  username : String
  password_hash : String
  role : String
  assigned_event_id : Option Nat
deriving DecidableEq

/-- Row of the `events` table. -/
structure Event where
  id : Nat
  name : Val
  description : Val
  date : Val
  location : Val
  created_by : Option Nat
deriving DecidableEq

/-- Row of the `participants` table. -/
structure Participant where
  id : Nat
  name : Val
  email : Val
  phone : Val
  college : Val
  group_name : Val
  event_id : Val
  registered_at : Nat
  checked_in : Val
  check_in_time : Option Nat
  id_card_photo : Option String
deriving DecidableEq

/-- Row of the `data_history` audit table. -/
structure HistoryEntry where
  id : Nat
  participant_id : Nat
  field_name : String
  old_value : Val
  new_value : Val
  modified_at : Nat
  modified_by : Nat
deriving DecidableEq

/-- Whole database state: the four tables plus the `AUTOINCREMENT` counters. -/
structure DBState where
  users : List User
  events : List Event
  participants : List Participant
  data_history : List HistoryEntry
  next_user_id : Nat
  next_event_id : Nat
  next_participant_id : Nat
  next_history_id : Nat
deriving DecidableEq

/-- Freshly initialized database (`initialize_database` creates empty tables). -/
def initDB : DBState :=
  { users := [], events := [], participants := [], data_history := [],
    next_user_id := 1, next_event_id := 1, next_participant_id := 1, next_history_id := 1 }

/-- `SELECT * FROM participants WHERE id = ?` followed by `fetchone()`. -/
def get_participant (db : DBState) (participant_id : Nat) : Option Participant :=
  db.participants.find? (fun p => p.id == participant_id)

/-- Insert one row into `data_history` (the `INSERT INTO data_history ...`
statements share this shape). -/
def append_history (db : DBState) (pid : Nat) (field : String) (ov nv : Val)
    (uid t : Nat) : DBState :=
  let h : HistoryEntry :=
    { id := db.next_history_id, participant_id := pid, field_name := field,
      old_value := ov, new_value := nv, modified_at := t, modified_by := uid }
  { db with data_history := db.data_history ++ [h],
            next_history_id := db.next_history_id + 1 }

/-- `UPDATE participants SET ... WHERE id = ?`: rewrite every row whose id
matches (the id itself is never changed by `f`). -/
def updateRow (ps : List Participant) (pid : Nat) (f : Participant → Participant) :
    List Participant :=
  ps.map (fun q => if q.id == pid then f q else q)

/-- `Database.add_participant`: plain INSERT with `checked_in` defaulting to 0
and `check_in_time`/`id_card_photo` defaulting to NULL; returns `lastrowid`.
The only way the INSERT can fail is SQLite's NOT NULL constraint on `name`:
binding `None` raises `IntegrityError` and persists nothing.  An empty string
satisfies NOT NULL, and foreign keys are not enforced, so any other input —
empty name, dangling `event_id` — is persisted without validation. -/
def add_participant (db : DBState) (name email phone college group_name event_id : Val)
    (t : Nat) : DBState × Except String Nat :=
  if name == .vNull then
    (db, .error "NOT NULL constraint failed: participants.name")
  else
    let pid := db.next_participant_id
    let p : Participant :=
      { id := pid, name := name, email := email, phone := phone, college := college,
        group_name := group_name, event_id := event_id, registered_at := t,
        checked_in := .vInt 0, check_in_time := none, id_card_photo := none }
    ({ db with participants := db.participants ++ [p], next_participant_id := pid + 1 },
     .ok pid)

/-- One row of the bulk-import payload: `none` means the dictionary key is
absent (so `dict.get` falls back to its default), `some v` the present value. -/
structure BulkRow where
  name : Option Val
  email : Option Val
  phone : Option Val
  college : Option Val
  group_name : Option Val
  event_id : Option Val
deriving DecidableEq

/-- Value bound for the `name` column by `bulk_add_participants`
(`participant.get('name', '')`). -/
def bulkRowName (r : BulkRow) : Val := r.name.getD (.vStr "")

/-- Participant row produced by inserting one bulk row (defaults mirror the
`dict.get` calls of `bulk_add_participants`). -/
def mkBulkParticipant (i : Nat) (r : BulkRow) (t : Nat) : Participant :=
  { id := i, name := bulkRowName r,
    email := r.email.getD (.vStr ""), phone := r.phone.getD (.vStr ""),
    college := r.college.getD (.vStr ""), group_name := r.group_name.getD (.vStr ""),
    event_id := r.event_id.getD .vNull, registered_at := t,
    checked_in := .vInt 0, check_in_time := none, id_card_photo := none }

/-- INSERT of one bulk row. -/
def bulkInsertRow (db : DBState) (r : BulkRow) (t : Nat) : DBState :=
  { db with participants := db.participants ++ [mkBulkParticipant db.next_participant_id r t],
            next_participant_id := db.next_participant_id + 1 }

/-- Participant rows produced by a whole successful batch, with consecutive
`AUTOINCREMENT` ids starting at `startId`. -/
def bulkRows (startId : Nat) (t : Nat) : List BulkRow → List Participant
  | [] => []
  | r :: rest => mkBulkParticipant startId r t :: bulkRows (startId + 1) t rest

/-- Result of `bulk_add_participants`: `True`, or the propagated exception. -/
inductive BulkResult where
  | success
  | integrityError (msg : String)
deriving DecidableEq

/-- The insert loop of `bulk_add_participants`.  An insert raises exactly when
it binds NULL to the NOT NULL `name` column (foreign keys are not enforced,
so no other row-level constraint can fail). -/
def bulkLoop (db : DBState) (t : Nat) : List BulkRow → Except String DBState
  | [] => .ok db
  | r :: rest =>
    if bulkRowName r == .vNull then
      .error "NOT NULL constraint failed: participants.name"
    else bulkLoop (bulkInsertRow db r t) t rest

/-- `Database.bulk_add_participants`: all inserts run in one transaction;
on success the loop commits, on any exception the transaction is rolled back
(leaving the pre-call state) and the exception is re-raised. -/
def bulk_add_participants (db : DBState) (rows : List BulkRow) (t : Nat) :
    DBState × BulkResult :=
  match bulkLoop db t rows with
  | .ok db1 => (db1, .success)
  | .error e => (db, .integrityError e)

/-- The change-tracking loop of `update_participant`: Python `!=` on the raw
values, and the raw old/new values are inserted into `data_history`. -/
def logRawDiffs (db : DBState) (pid uid t : Nat) :
    List (String × Val × Val) → DBState
  | [] => db
  | (field, ov, nv) :: rest =>
    if pyEq ov nv then logRawDiffs db pid uid t rest
    else logRawDiffs (append_history db pid field ov nv uid t) pid uid t rest

/-- The change-tracking loop of `update_participant_full`: values are compared
and stored as `str(...)` strings. -/
def logStrDiffs (db : DBState) (pid uid t : Nat) :
    List (String × Val × Val) → DBState
  | [] => db
  | (field, ov, nv) :: rest =>
    if pyStr ov == pyStr nv then logStrDiffs db pid uid t rest
    else logStrDiffs
      (append_history db pid field (.vStr (pyStr ov)) (.vStr (pyStr nv)) uid t)
      pid uid t rest

/-- `Database.update_participant`: fetch the row (returning `False` when the
id is unknown), log one audit row per field whose raw value differs, then
overwrite the five mutable fields. -/
def update_participant (db : DBState) (pid : Nat)
    (name email phone college group_name : Val) (uid t : Nat) : DBState × Bool :=
  match get_participant db pid with
  | none => (db, false)
  | some cur =>
    let changes := [("name", cur.name, name), ("email", cur.email, email),
      ("phone", cur.phone, phone), ("college", cur.college, college),
      ("group_name", cur.group_name, group_name)]
    let db1 := logRawDiffs db pid uid t changes
    let f : Participant → Participant := fun q =>
      { q with name := name, email := email, phone := phone,
               college := college, group_name := group_name }
    let db2 := { db1 with participants := updateRow db1.participants pid f }
    (db2, true)

/-- `Database.update_participant_full`: fetch the row (returning `False` when
the id is unknown), log one audit row per field whose `str()` form differs,
then overwrite all seven fields, stamping `check_in_time` on a falsy-to-truthy
`checked_in` transition and clearing it on a truthy-to-falsy transition. -/
def update_participant_full (db : DBState) (pid : Nat)
    (name email phone college group_name event_id checked_in : Val)
    (uid t : Nat) : DBState × Bool :=
  match get_participant db pid with
  | none => (db, false)
  | some cur =>
    let changes := [("name", cur.name, name), ("email", cur.email, email),
      ("phone", cur.phone, phone), ("college", cur.college, college),
      ("group_name", cur.group_name, group_name),
      ("event_id", cur.event_id, event_id),
      ("checked_in", cur.checked_in, checked_in)]
    let db1 := logStrDiffs db pid uid t changes
    let newTime : Option Nat :=
      if !pyTruthy cur.checked_in && pyTruthy checked_in then some t
      else if pyTruthy cur.checked_in && !pyTruthy checked_in then none
      else cur.check_in_time
    let f : Participant → Participant := fun q =>
      { q with name := name, email := email, phone := phone,
               college := college, group_name := group_name,
               event_id := event_id, checked_in := checked_in,
               check_in_time := newTime }
    let db2 := { db1 with participants := updateRow db1.participants pid f }
    (db2, true)

/-- `Database.check_in_participant`: returns `False` when the id is unknown or
the row is already checked in; otherwise sets `checked_in = 1`, stamps
`check_in_time`, stores the photo when one was (truthily) supplied, logs the
status flip, and logs the photo marker only when a photo was supplied. -/
def check_in_participant (db : DBState) (pid uid : Nat) (photo : Option String)
    (t : Nat) : DBState × Bool :=
  match get_participant db pid with
  | none => (db, false)
  | some cur =>
    if pyTruthy cur.checked_in then (db, false)
    else
      let fPhoto : Participant → Participant := fun q =>
        { q with checked_in := .vInt 1, check_in_time := some t,
                 id_card_photo := photo }
      let fPlain : Participant → Participant := fun q =>
        { q with checked_in := .vInt 1, check_in_time := some t }
      let newRows :=
        if photoTruthy photo then updateRow db.participants pid fPhoto
        else updateRow db.participants pid fPlain
      let db1 := { db with participants := newRows }
      let db2 := append_history db1 pid "checked_in" (.vStr "0") (.vStr "1") uid t
      let db3 :=
        if photoTruthy photo then
          append_history db2 pid "id_card_photo" .vNull (.vStr "Photo captured") uid t
        else db2
      (db3, true)

/-- `Database.undo_check_in`: no existence check at all — the UPDATE simply
matches zero rows for an unknown id, the two `data_history` INSERTs run
unconditionally, and the final `cursor.rowcount > 0` reads the rowcount of the
last INSERT (always 1), so the function always returns `True`. -/
def undo_check_in (db : DBState) (pid uid t : Nat) : DBState × Bool :=
  let f : Participant → Participant := fun q =>
    { q with checked_in := .vInt 0, check_in_time := none, id_card_photo := none }
  let db1 := { db with participants := updateRow db.participants pid f }
  let db2 := append_history db1 pid "checked_in" (.vStr "1") (.vStr "0") uid t
  let db3 := append_history db2 pid "id_card_photo" (.vStr "Photo captured")
    (.vStr "Photo removed") uid t
  (db3, true)

/-- `Database.delete_participant`: delete the history rows, then the
participant; returns whether the participant DELETE matched a row. -/
def delete_participant (db : DBState) (pid : Nat) : DBState × Bool :=
  let db1 := { db with
    data_history := db.data_history.filter (fun h => !(h.participant_id == pid)),
    participants := db.participants.filter (fun p => !(p.id == pid)) }
  (db1, db.participants.any (fun p => p.id == pid))

/-- `Database.delete_event`: delete the participants of the event, then the
event itself; `data_history` is not touched.  Returns whether the event
DELETE matched a row. -/
def delete_event (db : DBState) (eid : Nat) : DBState × Bool :=
  let db1 := { db with participants :=
    db.participants.filter (fun p => !(sqlEqInt p.event_id (Int.ofNat eid))) }
  let db2 := { db1 with events := db1.events.filter (fun e => !(e.id == eid)) }
  (db2, db.events.any (fun e => e.id == eid))

/-- `Database.delete_user`: plain DELETE by id. -/
def delete_user (db : DBState) (uid : Nat) : DBState × Bool :=
  ({ db with users := db.users.filter (fun u => !(u.id == uid)) },
   db.users.any (fun u => u.id == uid))

/-- History rows surviving the two INNER JOINs of
`get_data_modification_history`: a row is returned only when its participant
and its modifying user both still exist. -/
def visibleHistory (db : DBState) : List HistoryEntry :=
  db.data_history.filter (fun h =>
    db.participants.any (fun p => p.id == h.participant_id) &&
    db.users.any (fun u => u.id == h.modified_by))

/-- Insert into a list kept sorted by `modified_at` descending. -/
def insertByTimeDesc (h : HistoryEntry) : List HistoryEntry → List HistoryEntry
  | [] => [h]
  | h2 :: rest =>
    if h2.modified_at ≤ h.modified_at then h :: h2 :: rest
    else h2 :: insertByTimeDesc h rest

/-- `ORDER BY modified_at DESC` as an insertion sort. -/
def sortByTimeDesc : List HistoryEntry → List HistoryEntry
  | [] => []
  | h :: rest => insertByTimeDesc h (sortByTimeDesc rest)

/-- `Database.get_data_modification_history`: scoped to one participant when
the argument is truthy, else the most recent 100 rows system-wide; either way
only rows whose participant and user both exist are returned. -/
def get_data_modification_history (db : DBState) (participant_id : Option Nat) :
    List HistoryEntry :=
  let pv := participant_id.getD 0
  if pv ≠ 0 then
    sortByTimeDesc ((visibleHistory db).filter (fun h => h.participant_id == pv))
  else
    (sortByTimeDesc (visibleHistory db)).take 100

/-- The apostrophe character, as quoted around values in the validation
error messages of `validate_uploaded_data`. -/
def squo : String := (Char.ofNat 39).toString

/-- Python `', '.join(...)`. -/
def joinComma : List String → String
  | [] => ""
  | [s] => s
  | s :: rest => s ++ ", " ++ joinComma rest

/-- One uploaded spreadsheet row as seen by `validate_uploaded_data`:
`none` models a `pd.isna` cell.  The `Event ID` column is numeric after
pandas parsing, so its cells are integers. -/
structure UploadRow where
  name : Option String
  event_id : Option Int
  email : Option String
  phone : Option String
deriving DecidableEq

/-- An uploaded dataframe: which columns are present, plus the rows. -/
structure UploadDF where
  has_name_col : Bool
  has_event_id_col : Bool
  has_email_col : Bool
  has_phone_col : Bool
  rows : List UploadRow
deriving DecidableEq

/-- `valid_event_ids = [str(event['id']) for event in events]`. -/
def validEventIds (events : List Event) : List String :=
  events.map (fun e => toString e.id)

/-- Hard errors contributed by one row (`idx` is the 0-based row index;
messages use `idx + 2`, the 1-based position in the origin file after the
header row). -/
def rowErrors (idx : Nat) (r : UploadRow) (valid_ids : List String) : List String :=
  (match r.name with
   | none => ["Row " ++ toString (idx + 2) ++ ": Missing required field " ++ squo ++ "Name" ++ squo]
   | some s =>
     if s.trim == "" then
       ["Row " ++ toString (idx + 2) ++ ": Missing required field " ++ squo ++ "Name" ++ squo]
     else []) ++
  (match r.event_id with
   | none =>
     ["Row " ++ toString (idx + 2) ++ ": Missing required field " ++ squo ++ "Event ID" ++ squo]
   | some n =>
     if !(valid_ids.contains (toString n)) then
       ["Row " ++ toString (idx + 2) ++ ": Invalid Event ID " ++ squo ++ toString n ++ squo ++
        ". Valid IDs are: " ++ joinComma valid_ids]
     else [])

/-- Soft warnings contributed by one row (email and phone format checks,
each only when its column exists). -/
def rowWarnings (idx : Nat) (r : UploadRow) (has_email_col has_phone_col : Bool) :
    List String :=
  (if has_email_col then
     match r.email with
     | none => []
     | some e =>
       if e.trim != "" then
         if !(e.contains '@') || !(e.contains '.') then
           ["Row " ++ toString (idx + 2) ++ ": Email " ++ squo ++ e ++ squo ++ " may not be valid"]
         else []
       else []
   else []) ++
  (if has_phone_col then
     match r.phone with
     | none => []
     | some ph0 =>
       if ph0.trim != "" then
         if !(ph0.trim.all Char.isDigit) || ph0.trim.length < 10 then
           ["Row " ++ toString (idx + 2) ++ ": Phone number " ++ squo ++ ph0.trim ++ squo ++
            " may not be valid"]
         else []
       else []
   else [])

/-- The row loop of `validate_uploaded_data`, accumulating errors and
warnings in row order starting from 0-based index `idx`. -/
def validateRows (valid_ids : List String) (he hp : Bool) :
    List UploadRow → Nat → List String × List String
  | [], _ => ([], [])
  | r :: rest, idx =>
    let ew := validateRows valid_ids he hp rest (idx + 1)
    (rowErrors idx r valid_ids ++ ew.1, rowWarnings idx r he hp ++ ew.2)

/-- `validate_uploaded_data(df, events)`: missing required columns abort
early; otherwise hard errors and soft warnings are collected per row and
`is_valid` is exactly the emptiness of the error list. -/
def validate_uploaded_data (df : UploadDF) (events : List Event) :
    Bool × List String × List String :=
  let colErrors :=
    (if !df.has_name_col then ["Missing required column: Name"] else []) ++
    (if !df.has_event_id_col then ["Missing required column: Event ID"] else [])
  if !colErrors.isEmpty then (false, colErrors, [])
  else
    let ew := validateRows (validEventIds events) df.has_email_col df.has_phone_col df.rows 0
    (ew.1.isEmpty, ew.1, ew.2)

/-- Concrete admin user for the example databases below. -/
def exUser : User :=
  { id := 1, username := "admin", password_hash := "h", role := "admin",
    assigned_event_id := none }

/-- Concrete event for the example databases below. -/
def exEvent : Event :=
  { id := 1, name := .vStr "Dance", description := .vNull, date := .vStr "2025-01-01",
    location := .vNull, created_by := some 1 }

/-- Concrete not-yet-checked-in participant of event 1. -/
def wParticipant : Participant :=
  { id := 1, name := .vStr "Alice", email := .vStr "a@x.com", phone := .vStr "1234567890",
    college := .vStr "ABC", group_name := .vStr "G", event_id := .vInt 1,
    registered_at := 0, checked_in := .vInt 0, check_in_time := none, id_card_photo := none }

/-- Concrete database with one user, one event and one participant. -/
def wDB : DBState :=
  { users := [exUser], events := [exEvent], participants := [wParticipant],
    data_history := [], next_user_id := 2, next_event_id := 2,
    next_participant_id := 2, next_history_id := 1 }

/-- Concrete audit entry on participant 1 made by user 1. -/
def c2Entry : HistoryEntry :=
  { id := 1, participant_id := 1, field_name := "name", old_value := .vStr "Alice",
    new_value := .vStr "Alicia", modified_at := 3, modified_by := 1 }

/-- Concrete database whose single participant (of event 1) has one audit
entry. -/
def c2DB : DBState :=
  { users := [exUser], events := [exEvent], participants := [wParticipant],
    data_history := [c2Entry], next_user_id := 2, next_event_id := 2,
    next_participant_id := 2, next_history_id := 2 }

/-- Concrete participant whose stored `name` cell is the text `"1"`. -/
def c4Participant : Participant :=
  { id := 1, name := .vStr "1", email := .vStr "a@x.com", phone := .vStr "1234567890",
    college := .vStr "ABC", group_name := .vStr "G", event_id := .vInt 1,
    registered_at := 0, checked_in := .vInt 0, check_in_time := none, id_card_photo := none }

/-- Concrete database holding `c4Participant` and an empty audit log. -/
def c4DB : DBState :=
  { users := [exUser], events := [exEvent], participants := [c4Participant],
    data_history := [], next_user_id := 2, next_event_id := 2,
    next_participant_id := 2, next_history_id := 1 }

/-- Concrete bulk row whose `name` key is present but `None`. -/
def badBulkRow : BulkRow :=
  { name := some .vNull, email := some (.vStr "b@x.com"), phone := some (.vStr "1"),
    college := some (.vStr "C"), group_name := some (.vStr "G"),
    event_id := some (.vInt 1) }

/-- Concrete bulk row with all fields present and valid. -/
def goodBulkRow : BulkRow :=
  { name := some (.vStr "Bob"), email := some (.vStr "b@x.com"),
    phone := some (.vStr "0123456789"), college := some (.vStr "C"),
    group_name := some (.vStr "G"), event_id := some (.vInt 1) }

theorem append_history_participants (db : DBState) (pid : Nat) (field : String)
    (ov nv : Val) (uid t : Nat) :
    (append_history db pid field ov nv uid t).participants = db.participants := rfl

theorem append_history_users (db : DBState) (pid : Nat) (field : String)
    (ov nv : Val) (uid t : Nat) :
    (append_history db pid field ov nv uid t).users = db.users := rfl

theorem append_history_data_history (db : DBState) (pid : Nat) (field : String)
    (ov nv : Val) (uid t : Nat) :
    (append_history db pid field ov nv uid t).data_history = db.data_history ++
      [{ id := db.next_history_id, participant_id := pid, field_name := field,
         old_value := ov, new_value := nv, modified_at := t, modified_by := uid }] := rfl

theorem find?_updateRow (ps : List Participant) (pid : Nat)
    (f : Participant → Participant) (hf : ∀ q, (f q).id = q.id) :
    (updateRow ps pid f).find? (fun p => p.id == pid) =
      (ps.find? (fun p => p.id == pid)).map f := by
  induction ps with
  | nil => rfl
  | cons p rest ih =>
    show ((if (p.id == pid) = true then f p else p) :: updateRow rest pid f).find?
        (fun p => p.id == pid) = _
    by_cases hp : (p.id == pid) = true
    · have hfp : ((f p).id == pid) = true := by rw [hf p]; exact hp
      simp [List.find?_cons, hp, hfp]
    · simp [List.find?_cons, hp, ih]

theorem updateRow_eq_of_find?_none (ps : List Participant) (pid : Nat)
    (f : Participant → Participant)
    (h : ps.find? (fun p => p.id == pid) = none) :
    updateRow ps pid f = ps := by
  rw [List.find?_eq_none] at h
  induction ps with
  | nil => rfl
  | cons p rest ih =>
    have hp : (p.id == pid) = false := by
      simpa using h p (List.mem_cons_self p rest)
    have hrest : ∀ a ∈ rest, ¬((a.id == pid) = true) :=
      fun a ha => h a (List.mem_cons_of_mem p ha)
    have htail : updateRow rest pid f = rest := ih hrest
    show (if (p.id == pid) = true then f p else p) :: updateRow rest pid f = p :: rest
    simp [hp, htail]

theorem mem_insertByTimeDesc (a h : HistoryEntry) (l : List HistoryEntry) :
    a ∈ insertByTimeDesc h l ↔ a = h ∨ a ∈ l := by
  induction l with
  | nil => simp [insertByTimeDesc]
  | cons h2 rest ih =>
    by_cases hc : h2.modified_at ≤ h.modified_at
    · simp [insertByTimeDesc, hc]
    · simp only [insertByTimeDesc, hc, if_false, List.mem_cons, ih]
      tauto

theorem mem_sortByTimeDesc (a : HistoryEntry) (l : List HistoryEntry) :
    a ∈ sortByTimeDesc l ↔ a ∈ l := by
  induction l with
  | nil => simp [sortByTimeDesc]
  | cons h rest ih => simp [sortByTimeDesc, mem_insertByTimeDesc, ih]

theorem logRawDiffs_participants (pid uid t : Nat) :
    ∀ (cs : List (String × Val × Val)) (db : DBState),
      (logRawDiffs db pid uid t cs).participants = db.participants := by
  intro cs
  induction cs with
  | nil => intro db; rfl
  | cons c rest ih =>
    intro db
    obtain ⟨field, ov, nv⟩ := c
    cases hc : pyEq ov nv
    · simp [logRawDiffs, hc, ih, append_history]
    · simp [logRawDiffs, hc, ih]

theorem logStrDiffs_history_spec (pid uid t : Nat) :
    ∀ (cs : List (String × Val × Val)) (db : DBState),
      ∃ new : List HistoryEntry,
        (logStrDiffs db pid uid t cs).data_history = db.data_history ++ new ∧
        new.map (fun h => (h.participant_id, h.field_name, h.old_value, h.new_value)) =
          (cs.filter (fun c => !(pyStr c.2.1 == pyStr c.2.2))).map
            (fun c => (pid, c.1, Val.vStr (pyStr c.2.1), Val.vStr (pyStr c.2.2))) := by
  intro cs
  induction cs with
  | nil => intro db; exact ⟨[], by simp [logStrDiffs], by simp⟩
  | cons c rest ih =>
    intro db
    obtain ⟨field, ov, nv⟩ := c
    by_cases hc : pyStr ov = pyStr nv
    · obtain ⟨new, h1, h2⟩ := ih db
      exact ⟨new, by simpa [logStrDiffs, hc] using h1, by simpa [hc] using h2⟩
    · obtain ⟨new, h1, h2⟩ :=
        ih (append_history db pid field (.vStr (pyStr ov)) (.vStr (pyStr nv)) uid t)
      refine ⟨{ id := db.next_history_id, participant_id := pid, field_name := field,
                old_value := .vStr (pyStr ov), new_value := .vStr (pyStr nv),
                modified_at := t, modified_by := uid } :: new, ?_, ?_⟩
      · simp only [logStrDiffs, hc, beq_iff_eq, if_false]
        rw [h1, append_history_data_history]
        simp
      · simp [hc, h2]

theorem logRawDiffs_history_spec (pid uid t : Nat) :
    ∀ (cs : List (String × Val × Val)) (db : DBState),
      ∃ new : List HistoryEntry,
        (logRawDiffs db pid uid t cs).data_history = db.data_history ++ new ∧
        new.map (fun h => (h.participant_id, h.field_name, h.old_value, h.new_value)) =
          (cs.filter (fun c => !(pyEq c.2.1 c.2.2))).map
            (fun c => (pid, c.1, c.2.1, c.2.2)) := by
  intro cs
  induction cs with
  | nil => intro db; exact ⟨[], by simp [logRawDiffs], by simp⟩
  | cons c rest ih =>
    intro db
    obtain ⟨field, ov, nv⟩ := c
    cases hc : pyEq ov nv
    · obtain ⟨new, h1, h2⟩ := ih (append_history db pid field ov nv uid t)
      refine ⟨{ id := db.next_history_id, participant_id := pid, field_name := field,
                old_value := ov, new_value := nv,
                modified_at := t, modified_by := uid } :: new, ?_, ?_⟩
      · simp only [logRawDiffs, hc, if_false, Bool.false_eq_true]
        rw [h1, append_history_data_history]
        simp
      · simp [hc, h2]
    · obtain ⟨new, h1, h2⟩ := ih db
      exact ⟨new, by simpa [logRawDiffs, hc] using h1, by simpa [hc] using h2⟩

theorem bulkLoop_ok_spec (t : Nat) :
    ∀ (rows : List BulkRow) (db db1 : DBState), bulkLoop db t rows = .ok db1 →
      db1.participants = db.participants ++ bulkRows db.next_participant_id t rows ∧
      db1.data_history = db.data_history ∧
      db1.users = db.users ∧ db1.events = db.events := by
  intro rows
  induction rows with
  | nil =>
    intro db db1 h
    cases h
    simp [bulkRows]
  | cons r rest ih =>
    intro db db1 h
    by_cases hr : bulkRowName r = .vNull
    · simp [bulkLoop, hr] at h
    · simp only [bulkLoop, hr, beq_iff_eq, if_false] at h
      obtain ⟨h1, h2, h3, h4⟩ := ih _ _ h
      refine ⟨?_, ?_, ?_, ?_⟩
      · rw [h1]
        simp [bulkInsertRow, bulkRows]
      · rw [h2]; rfl
      · rw [h3]; rfl
      · rw [h4]; rfl

theorem bulkLoop_ok_iff (t : Nat) :
    ∀ (rows : List BulkRow) (db : DBState),
      (∃ db1, bulkLoop db t rows = .ok db1) ↔ ∀ r ∈ rows, bulkRowName r ≠ .vNull := by
  intro rows
  induction rows with
  | nil =>
    intro db
    simp [bulkLoop]
  | cons r rest ih =>
    intro db
    by_cases hr : bulkRowName r = .vNull
    · simp [bulkLoop, hr]
    · simp [bulkLoop, hr, ih]

/-- C5 (counterexample): `add_participant` does not fail with a
`ValidationError` on an empty name and a dangling event reference — on the
freshly initialized store (which has no events at all) it persists a
participant with an empty name and `event_id = 999`. -/
theorem c5_create_counterexample :
    initDB.events = [] ∧
    (add_participant initDB (.vStr "") (.vStr "") (.vStr "") (.vStr "") (.vStr "")
      (.vInt 999) 0).1.participants.length = 1 ∧
    (add_participant initDB (.vStr "") (.vStr "") (.vStr "") (.vStr "") (.vStr "")
      (.vInt 999) 0).1.data_history = [] := by
  decide

/-- C5 (amended): `add_participant` never raises the claimed
`ValidationError`: its sole failure is the NOT NULL constraint when the name
is `None` — an `IntegrityError` that leaves the store unchanged; for every
non-NULL name, including the empty string, and every `event_id`, existing or
not, it persists exactly one new participant with `checked_in = 0` and
`check_in_time = NULL`, writes no audit entry, and returns the new row id. -/
theorem c5_create_never_validates (db : DBState)
    (name email phone college group_name event_id : Val) (t : Nat) :
    (name = .vNull →
      add_participant db name email phone college group_name event_id t =
        (db, .error "NOT NULL constraint failed: participants.name")) ∧
    (name ≠ .vNull →
      (add_participant db name email phone college group_name event_id t).1.participants =
        db.participants ++
          [{ id := db.next_participant_id, name := name, email := email, phone := phone,
             college := college, group_name := group_name, event_id := event_id,
             registered_at := t, checked_in := .vInt 0, check_in_time := none,
             id_card_photo := none }] ∧
      (add_participant db name email phone college group_name event_id t).1.data_history =
        db.data_history ∧
      (add_participant db name email phone college group_name event_id t).2 =
        .ok db.next_participant_id) := by
  constructor
  · intro hnn
    simp [add_participant, hnn]
  · intro hnn
    refine ⟨?_, ?_, ?_⟩ <;> simp [add_participant, hnn]

/-- C5 (witness): the amended behavior at concrete inputs — an empty-string
name with a dangling event id is persisted and the new row id returned,
while a `None` name is rejected with the store left unchanged. -/
theorem c5_create_never_validates_witness :
    (add_participant wDB (.vStr "") (.vStr "") (.vStr "") (.vStr "") (.vStr "")
      (.vInt 999) 0).2 = .ok 2 ∧
    (add_participant wDB (.vStr "") (.vStr "") (.vStr "") (.vStr "") (.vStr "")
      (.vInt 999) 0).1.data_history = wDB.data_history ∧
    add_participant wDB .vNull (.vStr "") (.vStr "") (.vStr "") (.vStr "")
      (.vInt 1) 0 = (wDB, .error "NOT NULL constraint failed: participants.name") := by
  have h1 := (c5_create_never_validates wDB (.vStr "") (.vStr "") (.vStr "") (.vStr "")
    (.vStr "") (.vInt 999) 0).2 (by decide)
  have h2 := (c5_create_never_validates wDB .vNull (.vStr "") (.vStr "") (.vStr "")
    (.vStr "") (.vInt 1) 0).1 rfl
  exact ⟨h1.2.2, h1.2.1, h2⟩

/-- C6: `bulk_add_participants` is all-or-nothing — it succeeds exactly when
no row binds NULL to the NOT NULL `name` column; on success every row of the
batch is appended (with consecutive ids) and the audit log is untouched; on
failure the returned state is exactly the pre-call state. -/
theorem c6_bulk_all_or_nothing (db : DBState) (rows : List BulkRow) (t : Nat) :
    ((bulk_add_participants db rows t).2 = .success ↔
      ∀ r ∈ rows, bulkRowName r ≠ .vNull) ∧
    ((bulk_add_participants db rows t).2 = .success →
      (bulk_add_participants db rows t).1.participants =
        db.participants ++ bulkRows db.next_participant_id t rows ∧
      (bulk_add_participants db rows t).1.data_history = db.data_history) ∧
    ((bulk_add_participants db rows t).2 ≠ .success →
      (bulk_add_participants db rows t).1 = db) := by
  cases hl : bulkLoop db t rows with
  | ok db1 =>
    have hspec := bulkLoop_ok_spec t rows db db1 hl
    refine ⟨?_, ?_, ?_⟩
    · have hall := (bulkLoop_ok_iff t rows db).mp ⟨db1, hl⟩
      simp only [bulk_add_participants, hl]
      simpa using hall
    · intro _
      simp only [bulk_add_participants, hl]
      exact ⟨hspec.1, hspec.2.1⟩
    · intro hne
      exact absurd (by simp [bulk_add_participants, hl]) hne
  | error e =>
    refine ⟨?_, ?_, ?_⟩
    · simp only [bulk_add_participants, hl]
      constructor
      · intro h; cases h
      · intro hall
        obtain ⟨db1, hok⟩ := (bulkLoop_ok_iff t rows db).mpr hall
        rw [hok] at hl; cases hl
    · intro h
      simp [bulk_add_participants, hl] at h
    · intro _
      simp [bulk_add_participants, hl]

/-- C6 (witness): on a concrete batch whose second row carries a `None` name,
the whole batch is rejected and the store is returned unchanged. -/
theorem c6_bulk_all_or_nothing_witness :
    (bulk_add_participants wDB [goodBulkRow, badBulkRow] 0).2 ≠ .success ∧
    (bulk_add_participants wDB [goodBulkRow, badBulkRow] 0).1 = wDB := by
  refine ⟨by decide, (c6_bulk_all_or_nothing wDB [goodBulkRow, badBulkRow] 0).2.2 (by decide)⟩

/-- C2 (counterexample): deleting event 1 removes its participant (the lookup
now reports not-found) but the participant's audit entry survives in
`data_history`, so an audit entry referencing a deleted participant remains. -/
theorem c2_delete_event_counterexample :
    get_participant (delete_event c2DB 1).1 1 = none ∧
    c2Entry ∈ (delete_event c2DB 1).1.data_history ∧
    c2Entry.participant_id = 1 := by
  decide

/-- C2 (amended): deleting an event removes exactly that event's
participants — no participant of the event remains, every participant of
another event survives, and (with unique row ids) any removed participant's
id subsequently looks up as not-found — and removes the event itself, but
the participants' audit entries are left untouched in the audit log
(`delete_event` issues no DELETE against `data_history`). -/
theorem c2_delete_event_cascade (db : DBState) (eid : Nat) :
    (∀ q ∈ (delete_event db eid).1.participants,
      sqlEqInt q.event_id (Int.ofNat eid) = false) ∧
    (∀ q ∈ db.participants, sqlEqInt q.event_id (Int.ofNat eid) = false →
      q ∈ (delete_event db eid).1.participants) ∧
    (delete_event db eid).1.data_history = db.data_history ∧
    (∀ e ∈ (delete_event db eid).1.events, e.id ≠ eid) ∧
    (∀ p ∈ db.participants, sqlEqInt p.event_id (Int.ofNat eid) = true →
      (db.participants.map Participant.id).Nodup →
      get_participant (delete_event db eid).1 p.id = none) := by
  refine ⟨?_, ?_, rfl, ?_, ?_⟩
  · intro q hq
    simp only [delete_event, List.mem_filter] at hq
    simpa using hq.2
  · intro q hq hcond
    simp only [delete_event, List.mem_filter]
    exact ⟨hq, by simpa using hcond⟩
  · intro e he
    simp only [delete_event, List.mem_filter] at he
    intro hc
    rw [hc] at he
    simp at he
  · intro p hmem hev hids
    rw [get_participant, List.find?_eq_none]
    intro q hq
    simp only [delete_event, List.mem_filter] at hq
    obtain ⟨hqmem, hqev⟩ := hq
    intro hqid
    have : q = p := List.inj_on_of_nodup_map hids hqmem hmem (by simpa using hqid)
    rw [this, hev] at hqev
    simp at hqev

/-- C2 (witness): the amended cascade facts evaluated on the concrete
one-event, one-participant database: no participant of event 1 remains, the
removed participant's id looks up as not-found, and its audit entry is still
stored. -/
theorem c2_delete_event_cascade_witness :
    (∀ q ∈ (delete_event c2DB 1).1.participants,
      sqlEqInt q.event_id (Int.ofNat 1) = false) ∧
    get_participant (delete_event c2DB 1).1 wParticipant.id = none ∧
    (delete_event c2DB 1).1.data_history = c2DB.data_history :=
  ⟨(c2_delete_event_cascade c2DB 1).1,
   (c2_delete_event_cascade c2DB 1).2.2.2.2 wParticipant (by decide) (by decide)
     (by decide),
   (c2_delete_event_cascade c2DB 1).2.2.1⟩

/-- C8 (counterexample): participant 5 does not exist, yet `undo_check_in`
returns `True` and appends two audit rows, so the store is not left
unchanged and no failure is reported. -/
theorem c8_missing_id_counterexample :
    get_participant initDB 5 = none ∧
    (undo_check_in initDB 5 1 0).2 = true ∧
    (undo_check_in initDB 5 1 0).1.data_history.length = 2 := by
  decide

/-- C8 (amended): for a nonexistent participant id, `update_participant`,
`update_participant_full` and `check_in_participant` each return `False` and
leave the store unchanged, but `undo_check_in` returns `True` and appends its
two audit entries anyway (only the participant table is left unchanged). -/
theorem c8_missing_id_behavior (db : DBState) (pid : Nat)
    (name email phone college group_name event_id checked_in : Val)
    (uid t : Nat) (photo : Option String)
    (hnone : get_participant db pid = none) :
    update_participant db pid name email phone college group_name uid t = (db, false) ∧
    update_participant_full db pid name email phone college group_name event_id
      checked_in uid t = (db, false) ∧
    check_in_participant db pid uid photo t = (db, false) ∧
    (undo_check_in db pid uid t).2 = true ∧
    (undo_check_in db pid uid t).1.participants = db.participants ∧
    (undo_check_in db pid uid t).1.data_history.length = db.data_history.length + 2 := by
  have hrow : updateRow db.participants pid
      (fun q => { q with checked_in := .vInt 0, check_in_time := none,
                         id_card_photo := none }) = db.participants :=
    updateRow_eq_of_find?_none _ _ _ hnone
  refine ⟨?_, ?_, ?_, rfl, ?_, ?_⟩
  · simp [update_participant, hnone]
  · simp [update_participant_full, hnone]
  · simp [check_in_participant, hnone]
  · simp only [undo_check_in, append_history_participants]
    exact hrow
  · simp [undo_check_in, append_history]

/-- C8 (witness): the amended behavior evaluated at id 5 on the concrete
one-participant database. -/
theorem c8_missing_id_behavior_witness :
    update_participant wDB 5 (.vStr "N") (.vStr "E") (.vStr "P") (.vStr "C")
      (.vStr "G") 1 0 = (wDB, false) ∧
    check_in_participant wDB 5 1 none 0 = (wDB, false) ∧
    (undo_check_in wDB 5 1 0).2 = true := by
  have h := c8_missing_id_behavior wDB 5 (.vStr "N") (.vStr "E") (.vStr "P")
    (.vStr "C") (.vStr "G") (.vInt 1) (.vInt 0) 1 0 none (by decide)
  exact ⟨h.1, h.2.2.1, h.2.2.2.1⟩

/-- C4 (counterexample): participant 1 stores the text `"1"` as name; calling
`update_participant` with the integer `1` — a value whose canonicalized
(`str()`) form equals the stored one — still appends an audit entry, because
`update_participant` compares raw values without canonicalization. -/
theorem c4_update_counterexample :
    pyStr (Val.vStr "1") = pyStr (Val.vInt 1) ∧
    (update_participant c4DB 1 (.vInt 1) (.vStr "a@x.com") (.vStr "1234567890")
      (.vStr "ABC") (.vStr "G") 1 0).1.data_history.length =
      c4DB.data_history.length + 1 := by
  decide

/-- C4 (amended): `update_participant_full` appends exactly one audit entry
per field whose `str()`-canonicalized old and new values differ and none for
canonically-equal fields, while `update_participant` compares raw
(uncanonicalized) values: it appends exactly one entry per field whose raw
value differs, so a type-only difference (integer 1 versus string "1") does
produce an entry there. -/
theorem c4_update_audit_per_field (db : DBState) (pid : Nat)
    (name email phone college group_name event_id checked_in : Val)
    (uid t : Nat) (cur : Participant)
    (hfind : get_participant db pid = some cur) :
    (∃ new, (update_participant_full db pid name email phone college group_name
        event_id checked_in uid t).1.data_history = db.data_history ++ new ∧
      new.map (fun h => (h.participant_id, h.field_name, h.old_value, h.new_value)) =
        (([("name", cur.name, name), ("email", cur.email, email),
           ("phone", cur.phone, phone), ("college", cur.college, college),
           ("group_name", cur.group_name, group_name),
           ("event_id", cur.event_id, event_id),
           ("checked_in", cur.checked_in, checked_in)].filter
             (fun c => !(pyStr c.2.1 == pyStr c.2.2))).map
          (fun c => (pid, c.1, Val.vStr (pyStr c.2.1), Val.vStr (pyStr c.2.2))))) ∧
    (∃ new, (update_participant db pid name email phone college group_name
        uid t).1.data_history = db.data_history ++ new ∧
      new.map (fun h => (h.participant_id, h.field_name, h.old_value, h.new_value)) =
        (([("name", cur.name, name), ("email", cur.email, email),
           ("phone", cur.phone, phone), ("college", cur.college, college),
           ("group_name", cur.group_name, group_name)].filter
             (fun c => !(pyEq c.2.1 c.2.2))).map
          (fun c => (pid, c.1, c.2.1, c.2.2)))) := by
  constructor
  · obtain ⟨new, h1, h2⟩ := logStrDiffs_history_spec pid uid t
      [("name", cur.name, name), ("email", cur.email, email),
       ("phone", cur.phone, phone), ("college", cur.college, college),
       ("group_name", cur.group_name, group_name),
       ("event_id", cur.event_id, event_id),
       ("checked_in", cur.checked_in, checked_in)] db
    refine ⟨new, ?_, h2⟩
    simp only [update_participant_full, hfind]
    exact h1
  · obtain ⟨new, h1, h2⟩ := logRawDiffs_history_spec pid uid t
      [("name", cur.name, name), ("email", cur.email, email),
       ("phone", cur.phone, phone), ("college", cur.college, college),
       ("group_name", cur.group_name, group_name)] db
    refine ⟨new, ?_, h2⟩
    simp only [update_participant, hfind]
    exact h1

/-- C4 (witness): the per-field audit behavior evaluated on the concrete
database `c4DB`: changing only the email under `update_participant_full`
yields exactly one entry tagged "email". -/
theorem c4_update_audit_per_field_witness :
    ∃ new, (update_participant_full c4DB 1 (.vStr "1") (.vStr "new@x.com")
        (.vStr "1234567890") (.vStr "ABC") (.vStr "G") (.vInt 1) (.vInt 0)
        1 0).1.data_history = c4DB.data_history ++ new ∧
      new.map (fun h => (h.participant_id, h.field_name, h.old_value, h.new_value)) =
        [(1, "email", Val.vStr "a@x.com", Val.vStr "new@x.com")] := by
  obtain ⟨h1, _⟩ := c4_update_audit_per_field c4DB 1 (.vStr "1") (.vStr "new@x.com")
    (.vStr "1234567890") (.vStr "ABC") (.vStr "G") (.vInt 1) (.vInt 0) 1 0
    c4Participant (by decide)
  obtain ⟨new, hh, hm⟩ := h1
  exact ⟨new, hh, by rw [hm]; decide⟩

/-- C7: `undo_check_in` on an existing participant clears the flag, the
timestamp and the photo, reports success, and always appends exactly the two
audit entries (status flip and photo-removal marker) whether or not a photo
was stored; `check_in_participant`, in contrast, appends the photo-capture
entry only when a photo was actually supplied. -/
theorem c7_undo_always_two_entries (db : DBState) (pid uid t : Nat)
    (cur : Participant) (hfind : get_participant db pid = some cur) :
    get_participant (undo_check_in db pid uid t).1 pid =
      some { cur with checked_in := .vInt 0, check_in_time := none,
                      id_card_photo := none } ∧
    (undo_check_in db pid uid t).2 = true ∧
    (undo_check_in db pid uid t).1.data_history = db.data_history ++
      [{ id := db.next_history_id, participant_id := pid, field_name := "checked_in",
         old_value := .vStr "1", new_value := .vStr "0", modified_at := t,
         modified_by := uid },
       { id := db.next_history_id + 1, participant_id := pid,
         field_name := "id_card_photo", old_value := .vStr "Photo captured",
         new_value := .vStr "Photo removed", modified_at := t, modified_by := uid }] ∧
    (pyTruthy cur.checked_in = false →
      (check_in_participant db pid uid none t).1.data_history = db.data_history ++
        [{ id := db.next_history_id, participant_id := pid, field_name := "checked_in",
           old_value := .vStr "0", new_value := .vStr "1", modified_at := t,
           modified_by := uid }] ∧
      ∀ s : String, s ≠ "" →
        (check_in_participant db pid uid (some s) t).1.data_history = db.data_history ++
          [{ id := db.next_history_id, participant_id := pid,
             field_name := "checked_in", old_value := .vStr "0",
             new_value := .vStr "1", modified_at := t, modified_by := uid },
           { id := db.next_history_id + 1, participant_id := pid,
             field_name := "id_card_photo", old_value := .vNull,
             new_value := .vStr "Photo captured", modified_at := t,
             modified_by := uid }]) := by
  refine ⟨?_, rfl, ?_, ?_⟩
  · have hp : (undo_check_in db pid uid t).1.participants =
        updateRow db.participants pid (fun q =>
          { q with checked_in := .vInt 0, check_in_time := none,
                   id_card_photo := none }) := rfl
    rw [get_participant, hp, find?_updateRow db.participants pid
      (fun q => { q with checked_in := .vInt 0, check_in_time := none,
                         id_card_photo := none }) (fun q => rfl)]
    rw [get_participant] at hfind
    rw [hfind]
    rfl
  · simp [undo_check_in, append_history]
  · intro hT
    constructor
    · simp [check_in_participant, hfind, hT, photoTruthy, append_history]
    · intro s hs
      simp [check_in_participant, hfind, hT, photoTruthy, hs, append_history]

/-- C7 (witness): the undo and check-in logging facts evaluated on the
concrete database `wDB` at participant 1. -/
theorem c7_undo_always_two_entries_witness :
    (undo_check_in wDB 1 1 9).2 = true ∧
    (undo_check_in wDB 1 1 9).1.data_history.length = 2 ∧
    (check_in_participant wDB 1 1 none 9).1.data_history.length = 1 := by
  have h := c7_undo_always_two_entries wDB 1 1 9 wParticipant (by decide)
  refine ⟨h.2.1, ?_, ?_⟩
  · rw [h.2.2.1]; decide
  · rw [(h.2.2.2 (by decide)).1]; decide

/-- C3: check-in is idempotent-guarded — on an already-checked-in participant
the call is a pure no-op returning `False` (failure, not an error), and two
consecutive check-ins of a not-checked-in participant record exactly one
status-flip audit entry, with the second call returning `False` and changing
nothing. -/
theorem c3_checkin_idempotent_guard (db : DBState) (pid uid1 uid2 : Nat)
    (photo1 photo2 : Option String) (t1 t2 : Nat) (cur : Participant)
    (hfind : get_participant db pid = some cur) :
    (pyTruthy cur.checked_in = true →
      check_in_participant db pid uid1 photo1 t1 = (db, false)) ∧
    (pyTruthy cur.checked_in = false →
      (check_in_participant db pid uid1 photo1 t1).2 = true ∧
      check_in_participant (check_in_participant db pid uid1 photo1 t1).1
          pid uid2 photo2 t2 =
        ((check_in_participant db pid uid1 photo1 t1).1, false) ∧
      ((check_in_participant db pid uid1 photo1 t1).1.data_history.filter
          (fun h => h.participant_id == pid && h.field_name == "checked_in")).length =
        (db.data_history.filter
          (fun h => h.participant_id == pid && h.field_name == "checked_in")).length
          + 1) := by
  constructor
  · intro hT
    simp [check_in_participant, hfind, hT]
  · intro hT
    have hpart : ∃ f : Participant → Participant, (∀ q, (f q).id = q.id) ∧
        (∀ q, (f q).checked_in = .vInt 1) ∧
        (check_in_participant db pid uid1 photo1 t1).1.participants =
          updateRow db.participants pid f := by
      by_cases hp : photoTruthy photo1 = true
      · refine ⟨fun q => { q with checked_in := .vInt 1, check_in_time := some t1, id_card_photo := photo1 }, fun q => rfl, fun q => rfl, ?_⟩
        simp [check_in_participant, hfind, hT, hp, append_history]
      · refine ⟨fun q => { q with checked_in := .vInt 1, check_in_time := some t1 }, fun q => rfl, fun q => rfl, ?_⟩
        simp [check_in_participant, hfind, hT, hp, append_history]
    obtain ⟨f, hfid, hfc, hps⟩ := hpart
    have hfind2 : get_participant (check_in_participant db pid uid1 photo1 t1).1 pid =
        some (f cur) := by
      rw [get_participant, hps, find?_updateRow db.participants pid f hfid]
      rw [get_participant] at hfind
      rw [hfind]
      rfl
    refine ⟨by simp [check_in_participant, hfind, hT], ?_, ?_⟩
    · have hT2 : pyTruthy (f cur).checked_in = true := by rw [hfc cur]; rfl
      generalize hS : (check_in_participant db pid uid1 photo1 t1).1 = S at hfind2 ⊢
      simp [check_in_participant, hfind2, hT2]
    · by_cases hp : photoTruthy photo1 = true
      · simp [check_in_participant, hfind, hT, hp, append_history,
          List.filter_append]
      · simp [check_in_participant, hfind, hT, hp, append_history,
          List.filter_append]

/-- C3 (witness): the guard evaluated on the concrete database `wDB`: the
first check-in of participant 1 succeeds, the second reports failure and
leaves the state untouched, and exactly one status-flip entry was logged. -/
theorem c3_checkin_idempotent_guard_witness :
    (check_in_participant wDB 1 1 none 5).2 = true ∧
    check_in_participant (check_in_participant wDB 1 1 none 5).1 1 2 none 6 =
      ((check_in_participant wDB 1 1 none 5).1, false) ∧
    ((check_in_participant wDB 1 1 none 5).1.data_history.filter
      (fun h => h.participant_id == 1 && h.field_name == "checked_in")).length = 1 := by
  have h := (c3_checkin_idempotent_guard wDB 1 1 2 none none 5 6 wParticipant
    (by decide)).2 (by decide)
  exact ⟨h.1, h.2.1, by rw [h.2.2]; decide⟩

/-- C10: after deleting the user who made a modification, the audit entry
remains stored in `data_history`, but both forms of the history query (the
per-participant one and the unscoped most-recent-100 one) omit it, because
the query inner-joins the `users` table. -/
theorem c10_history_hides_deleted_user (db : DBState) (uid : Nat)
    (h : HistoryEntry) (popt : Option Nat)
    (hmem : h ∈ db.data_history) (hby : h.modified_by = uid) :
    h ∈ (delete_user db uid).1.data_history ∧
    h ∉ get_data_modification_history (delete_user db uid).1 popt := by
  refine ⟨hmem, ?_⟩
  intro hin
  have hvis : h ∈ visibleHistory (delete_user db uid).1 := by
    unfold get_data_modification_history at hin
    by_cases hpv : (popt.getD 0) ≠ 0
    · rw [if_pos hpv] at hin
      exact (List.mem_filter.mp ((mem_sortByTimeDesc _ _).mp hin)).1
    · rw [if_neg hpv] at hin
      exact (mem_sortByTimeDesc _ _).mp (List.take_subset _ _ hin)
  have hcond := (List.mem_filter.mp hvis).2
  rw [Bool.and_eq_true] at hcond
  obtain ⟨u, hu, huid⟩ := List.any_eq_true.mp hcond.2
  obtain ⟨humem, hkeep⟩ := List.mem_filter.mp hu
  have huid' : u.id = uid := by rw [← hby]; exact beq_iff_eq.mp huid
  simp [huid'] at hkeep

/-- C10 (witness): on the concrete database `c2DB`, deleting user 1 leaves
its audit entry stored but invisible to the scoped history query. -/
theorem c10_history_hides_deleted_user_witness :
    c2Entry ∈ (delete_user c2DB 1).1.data_history ∧
    c2Entry ∉ get_data_modification_history (delete_user c2DB 1).1 (some 1) :=
  c10_history_hides_deleted_user c2DB 1 c2Entry (some 1) (by decide) rfl

theorem contains_eq_true_iff_mem (l : List String) (s : String) :
    l.contains s = true ↔ s ∈ l := by
  simp [List.contains_iff_exists_mem_beq]

theorem rowErrors_eq_nil_iff (idx : Nat) (r : UploadRow) (vids : List String) :
    rowErrors idx r vids = [] ↔
      ((∃ s, r.name = some s ∧ ¬s.trim = "") ∧
       (∃ n, r.event_id = some n ∧ toString n ∈ vids)) := by
  unfold rowErrors
  cases hn : r.name with
  | none => simp [hn]
  | some s =>
    by_cases hs : s.trim = ""
    · simp [hn, hs]
    · cases he : r.event_id with
      | none => simp [hn, hs, he]
      | some n =>
        by_cases hv : toString n ∈ vids
        · simp [hn, hs, he, hv, (contains_eq_true_iff_mem vids (toString n)).mpr hv]
        · have hc : vids.contains (toString n) = false := by
            rw [← Bool.not_eq_true, contains_eq_true_iff_mem]
            exact hv
          simp [hn, hs, he, hv, hc]

theorem validateRows_errors_eq_nil_iff (vids : List String) (he hp : Bool) :
    ∀ (rows : List UploadRow) (idx : Nat),
      (validateRows vids he hp rows idx).1 = [] ↔
        ∀ r ∈ rows, ((∃ s, r.name = some s ∧ ¬s.trim = "") ∧
                     (∃ n, r.event_id = some n ∧ toString n ∈ vids)) := by
  intro rows
  induction rows with
  | nil => intro idx; simp [validateRows]
  | cons r rest ih =>
    intro idx
    simp only [validateRows, List.append_eq_nil, rowErrors_eq_nil_iff, ih (idx + 1),
      List.forall_mem_cons]

theorem validateRows_invalid_event_msg (vids : List String) (he hp : Bool) :
    ∀ (rows : List UploadRow) (idx i : Nat) (r : UploadRow) (n : Int),
      rows[i]? = some r → r.event_id = some n → toString n ∉ vids →
      ("Row " ++ toString (idx + i + 2) ++ ": Invalid Event ID " ++ squo ++
        toString n ++ squo ++ ". Valid IDs are: " ++ joinComma vids) ∈
        (validateRows vids he hp rows idx).1 := by
  intro rows
  induction rows with
  | nil =>
    intro idx i r n hget
    simp at hget
  | cons r0 rest ih =>
    intro idx i r n hget hev hnv
    cases i with
    | zero =>
      rw [List.getElem?_cons_zero, Option.some_inj] at hget
      subst hget
      apply List.mem_append_left
      unfold rowErrors
      apply List.mem_append_right
      have hc : vids.contains (toString n) = false := by
        rw [← Bool.not_eq_true, contains_eq_true_iff_mem]
        exact hnv
      rw [hev]
      simp [hc, hnv]
    | succ j =>
      rw [List.getElem?_cons_succ] at hget
      have hmem := ih (idx + 1) j r n hget hev hnv
      apply List.mem_append_right
      have harith : idx + 1 + j = idx + (j + 1) := by omega
      rw [harith] at hmem
      exact hmem

theorem validateRows_missing_name_msg (vids : List String) (he hp : Bool) :
    ∀ (rows : List UploadRow) (idx i : Nat) (r : UploadRow),
      rows[i]? = some r →
      (r.name = none ∨ ∃ s, r.name = some s ∧ s.trim = "") →
      ("Row " ++ toString (idx + i + 2) ++ ": Missing required field " ++ squo ++
        "Name" ++ squo) ∈ (validateRows vids he hp rows idx).1 := by
  intro rows
  induction rows with
  | nil =>
    intro idx i r hget
    simp at hget
  | cons r0 rest ih =>
    intro idx i r hget hname
    cases i with
    | zero =>
      rw [List.getElem?_cons_zero, Option.some_inj] at hget
      subst hget
      apply List.mem_append_left
      unfold rowErrors
      apply List.mem_append_left
      rcases hname with hn | ⟨s, hn, hs⟩
      · rw [hn]
        simp
      · rw [hn]
        simp [hs]
    | succ j =>
      rw [List.getElem?_cons_succ] at hget
      have hmem := ih (idx + 1) j r hget hname
      apply List.mem_append_right
      have harith : idx + 1 + j = idx + (j + 1) := by omega
      rw [harith] at hmem
      exact hmem

/-- C9: with the two required columns present, `validate_uploaded_data` is
valid exactly when every row has a non-blank name and an event id matching a
known event (so email/phone problems, which only feed the warning list, never
make it invalid); a bad event id contributes an error naming the row's
1-based file position (index plus the fixed header offset 2) and listing the
valid ids, and a missing name contributes the corresponding error message. -/
theorem c9_validate_hard_errors_only (df : UploadDF) (events : List Event)
    (hn : df.has_name_col = true) (hei : df.has_event_id_col = true) :
    ((validate_uploaded_data df events).1 = true ↔
      ∀ r ∈ df.rows, (∃ s, r.name = some s ∧ ¬s.trim = "") ∧
        (∃ n, r.event_id = some n ∧ toString n ∈ validEventIds events)) ∧
    (∀ (i : Nat) (r : UploadRow) (n : Int), df.rows[i]? = some r →
      r.event_id = some n → toString n ∉ validEventIds events →
      ("Row " ++ toString (i + 2) ++ ": Invalid Event ID " ++ squo ++ toString n ++
        squo ++ ". Valid IDs are: " ++ joinComma (validEventIds events)) ∈
        (validate_uploaded_data df events).2.1) ∧
    (∀ (i : Nat) (r : UploadRow), df.rows[i]? = some r →
      (r.name = none ∨ ∃ s, r.name = some s ∧ s.trim = "") →
      ("Row " ++ toString (i + 2) ++ ": Missing required field " ++ squo ++ "Name" ++
        squo) ∈ (validate_uploaded_data df events).2.1) := by
  have hval1 : (validate_uploaded_data df events).1 =
      (validateRows (validEventIds events) df.has_email_col df.has_phone_col
        df.rows 0).1.isEmpty := by
    simp [validate_uploaded_data, hn, hei]
  have hval2 : (validate_uploaded_data df events).2.1 =
      (validateRows (validEventIds events) df.has_email_col df.has_phone_col
        df.rows 0).1 := by
    simp [validate_uploaded_data, hn, hei]
  refine ⟨?_, ?_, ?_⟩
  · rw [hval1]
    rw [List.isEmpty_iff]
    exact validateRows_errors_eq_nil_iff (validEventIds events) df.has_email_col
      df.has_phone_col df.rows 0
  · intro i r n hget hev hnv
    rw [hval2]
    have hmem := validateRows_invalid_event_msg (validEventIds events)
      df.has_email_col df.has_phone_col df.rows 0 i r n hget hev hnv
    simpa using hmem
  · intro i r hget hname
    rw [hval2]
    have hmem := validateRows_missing_name_msg (validEventIds events)
      df.has_email_col df.has_phone_col df.rows 0 i r hget hname
    simpa using hmem

/-- C9 (witness): a concrete upload with one valid row and one row whose
event id 999 matches no event: the invalid-id error message for file row 3
(0-based index 1 plus header offset) appears in the error list. -/
theorem c9_validate_hard_errors_only_witness :
    ("Row " ++ toString (1 + 2) ++ ": Invalid Event ID " ++ squo ++
      toString (999 : Int) ++ squo ++ ". Valid IDs are: " ++
      joinComma (validEventIds [exEvent])) ∈
      (validate_uploaded_data
        ⟨true, true, true, true,
         [⟨some "John", some 1, some "john@x.com", some "9876543210"⟩,
          ⟨some "Jane", some 999, some "bad", some "12"⟩]⟩ [exEvent]).2.1 :=
  (c9_validate_hard_errors_only
    ⟨true, true, true, true,
     [⟨some "John", some 1, some "john@x.com", some "9876543210"⟩,
      ⟨some "Jane", some 999, some "bad", some "12"⟩]⟩ [exEvent] rfl rfl).2.1
    1 ⟨some "Jane", some 999, some "bad", some "12"⟩ 999 (by decide) rfl (by decide)
